import Mathlib

/-!
Verification development for the market-query repository.

Shallow embedding conventions:
* Python floats are modelled as exact rationals (`ℚ`); `round(x, d)` is modelled
  as rounding `x * 10^d` to the nearest integer (Python uses round-half-to-even
  on binary floats; the tie-breaking mode is never relevant to the properties
  proved here).
* Python dicts whose key sets vary between code paths are modelled as structures
  with `Option` fields: `none` means the key is absent, and reading an absent
  key is a `KeyError`, modelled with `Except`.
* Code that can raise is modelled in the `Except String` monad; code that
  cannot raise is a plain function.
* `dict.get(k, default)` is modelled with `Option.getD`.
-/

deriving instance DecidableEq for Except

namespace MarketQuery

/-- The apostrophe character, used when building Python error strings such as
the `str()` of a `KeyError`. -/
def apos : String := String.singleton (Char.ofNat 39)

/-- Model of Python `round(x, d)`: round `x * 10^d` to the nearest integer and
scale back.  (Python rounds ties to even; ties never matter in this
development.) -/
def roundTo (d : ℕ) (q : ℚ) : ℚ := ((round (q * 10 ^ d) : ℤ) : ℚ) / 10 ^ d

/-- Model of `round(math-sqrt v, 3)` for a rational `v ≥ 0`:
`round(1000·√(a/b)) = ⌊(√(4·10⁶·a·b) + b) / (2b)⌋` with `v = a/b` in lowest
terms, computed exactly with `Nat.sqrt`.  Used only for the sample standard
deviation of `statistics.stdev`, whose numeric value no claim depends on. -/
def sqrtRoundTo3 (v : ℚ) : ℚ :=
  let a := v.num.toNat
  let b := v.den
  (((Nat.sqrt (4000000 * a * b) + b) / (2 * b) : ℕ) : ℚ) / 1000

/-- Fixed-point decimal formatting, modelling Python `f-string` `:.Nf` formats
(used only to build evidence/indicator strings). -/
def fmtFixed (d : ℕ) (q : ℚ) : String :=
  let n : ℤ := round (q * 10 ^ d)
  let a := n.natAbs
  let sign := if n < 0 then "-" else ""
  let ip := toString (a / 10 ^ d)
  let fpNat := a % 10 ^ d
  let fp := toString fpNat
  let pad := String.mk (List.replicate (d - fp.length) (Char.ofNat 48))
  if d = 0 then sign ++ ip else sign ++ ip ++ "." ++ pad ++ fp

/-- Python `f"{x:.1%}"`: percentage with one decimal digit. -/
def fmtPercent1 (q : ℚ) : String := fmtFixed 1 (q * 100) ++ "%"

/-- `max` of a list, defined on the nonempty case exactly as Python `max`
(the `[]` case is unreachable at every use site, like Python's `ValueError`). -/
def listMax : List ℚ → ℚ
  | [] => 0
  | x :: xs => xs.foldl max x

/-- `min` of a list, nonempty case as Python `min`. -/
def listMin : List ℚ → ℚ
  | [] => 0
  | x :: xs => xs.foldl min x

/-- `statistics.mean`. -/
def listMean (xs : List ℚ) : ℚ := xs.sum / xs.length

/-- Sample variance `Σ(x-mean)²/(n-1)`, the square under `statistics.stdev`. -/
def sampleVariance (xs : List ℚ) : ℚ :=
  let m := listMean xs
  (xs.map (fun x => (x - m) ^ 2)).sum / (xs.length - 1 : ℚ)

/-- ASCII lower-casing of a string, modelling `str.lower()` on the ASCII
comment texts this pipeline handles. -/
def lowerStr (s : String) : String := String.mk (s.data.map Char.toLower)

/-- Whitespace test used by Python `str.split()` with no arguments. -/
def isPySpace (c : Char) : Bool :=
  c = Char.ofNat 32 ∨ c = Char.ofNat 9 ∨ c = Char.ofNat 10 ∨
    c = Char.ofNat 13 ∨ c = Char.ofNat 11 ∨ c = Char.ofNat 12

/-- Helper for `splitWords`: accumulates the current word (reversed). -/
def splitWordsAux : List Char → List Char → List (List Char)
  | [], cur => if cur.isEmpty then [] else [cur.reverse]
  | c :: cs, cur =>
      if isPySpace c then
        if cur.isEmpty then splitWordsAux cs [] else cur.reverse :: splitWordsAux cs []
      else splitWordsAux cs (c :: cur)

/-- Python `str.split()` (no argument): split on whitespace runs, drop empties. -/
def splitWords (s : String) : List String :=
  (splitWordsAux s.data []).map String.mk

/-- Substring test on char lists: `needle` occurs contiguously in `hay`. -/
def isSubL (needle hay : List Char) : Bool :=
  match hay with
  | [] => needle.isEmpty
  | _ :: t => needle.isPrefixOf hay || isSubL needle t

/-- Python `needle in hay` on strings (substring containment). -/
def strIn (needle hay : String) : Bool := isSubL needle.data hay.data

/-! ## Data model of the gap-detection input records

A competitor record is a JSON-ish dict; the scoring code reads each field with
`dict.get` and a default, so every consumed field is modelled as an `Option`.
The open `metadata` mapping is modelled by its single consumed key, `stars`. -/

structure CompetitorRecord where
  source : Option String
  title : Option String
  url : Option String
  snippet : Option String
  stars : Option ℤ
  similarity : Option ℚ
  comment : Option String
deriving DecidableEq, Repr

structure SimilarityStats where
  avg : ℚ
  max : ℚ
  min : ℚ
  std : ℚ
deriving DecidableEq, Repr

/-- The metrics dict built by `_calculate_market_metrics`.
`high_quality_competitors` is `Option` because the empty-input branch of the
source returns a dict WITHOUT that key. -/
structure MarketMetrics where
  total_competitors : ℕ
  source_distribution : List (String × ℕ)
  similarity_stats : SimilarityStats
  high_quality_competitors : Option ℕ
  uniqueness_score : ℚ
  saturation_level : String
deriving DecidableEq, Repr

/-- Bump a key of an insertion-ordered counting assoc list
(`sources[source] = sources.get(source, 0) + 1` on a Python dict). -/
def bumpCount (l : List (String × ℕ)) (k : String) : List (String × ℕ) :=
  match l with
  | [] => [(k, 1)]
  | (k0, v0) :: rest => if k0 = k then (k0, v0 + 1) :: rest else (k0, v0) :: bumpCount rest k

/-- Count lookup with default 0 (`dict.get(k, 0)`). -/
def getCount (l : List (String × ℕ)) (k : String) : ℕ := ((l.lookup k).getD 0)

/-- One iteration of the high-quality tally in `_calculate_market_metrics`:
`if source == "github" and stars > 100: hq += 1  elif similarity > 0.7: hq += 1`. -/
def hqStep (acc : ℕ) (r : CompetitorRecord) : ℕ :=
  if r.source.getD "unknown" = "github" ∧ r.stars.getD 0 > 100 then acc + 1
  else if r.similarity.getD 0 > 7 / 10 then acc + 1
  else acc

/-- `_calculate_market_metrics` from `src/agents/gap_detector/gap_detection.py`. -/
def calculate_market_metrics (scored_results : List CompetitorRecord)
    (uniqueness_score : ℚ) (saturation : String) : MarketMetrics :=
  if scored_results.isEmpty then
    { total_competitors := 0
      source_distribution := []
      similarity_stats := { avg := 0, max := 0, min := 0, std := 0 }
      high_quality_competitors := none
      uniqueness_score := uniqueness_score
      saturation_level := saturation }
  else
    let sources := scored_results.foldl (fun l r => bumpCount l (r.source.getD "unknown")) []
    let similarity_scores := scored_results.map (fun r => r.similarity.getD 0)
    let high_quality := scored_results.foldl hqStep 0
    { total_competitors := scored_results.length
      source_distribution := sources
      similarity_stats :=
        { avg := roundTo 3 (listMean similarity_scores)
          max := roundTo 3 (listMax similarity_scores)
          min := roundTo 3 (listMin similarity_scores)
          std := if similarity_scores.length > 1 then sqrtRoundTo3 (sampleVariance similarity_scores)
                 else roundTo 3 0 }
      high_quality_competitors := some high_quality
      uniqueness_score := uniqueness_score
      saturation_level := saturation }

/-! ## Gap identification -/

structure Gap where
  gap_type : String
  description : String
  confidence : ℚ
  priority : String
  potential_impact : String
  evidence : String
deriving DecidableEq, Repr

structure FeatureGap where
  feature : String
  frequency : ℕ
  confidence : ℚ
deriving DecidableEq, Repr

/-- The seven `(indicator, category)` pairs of `_extract_feature_gaps`.
The second indicator contains an apostrophe, built via `apos`. -/
def gap_indicators : List (String × String) :=
  [("lacks", "missing functionality"),
   ("doesn" ++ apos ++ "t support", "unsupported features"),
   ("no integration", "integration gaps"),
   ("limited", "capability limitations"),
   ("basic", "feature depth"),
   ("simple", "complexity gaps"),
   ("manual", "automation opportunities")]

/-- The per-(record, indicator) test of `_extract_feature_gaps`: the source
requires `indicator in comment` (lower-cased) AND — via the
`next(...)`/`StopIteration` idiom — some whitespace-separated word of the
comment containing the indicator; only then is the category bumped. -/
def mentions (r : CompetitorRecord) (indicator : String) : Bool :=
  let comment := lowerStr (r.comment.getD "")
  strIn indicator comment && (splitWords comment).any (fun w => strIn indicator w)

/-- One record's contribution to the feature-mention tally. -/
def tallyRecord (t : List (String × ℕ)) (r : CompetitorRecord) : List (String × ℕ) :=
  gap_indicators.foldl
    (fun t2 p => if mentions r p.1 then bumpCount t2 p.2 else t2) t

/-- Insert an entry into a count-descending list, after all entries with a
count ≥ its own (keeps first-insertion order among equal counts, matching
`Counter.most_common`). -/
def insertByCount (x : String × ℕ) : List (String × ℕ) → List (String × ℕ)
  | [] => [x]
  | y :: ys => if x.2 ≤ y.2 then y :: insertByCount x ys else x :: y :: ys

/-- Stable sort by descending count (`Counter.most_common` ordering). -/
def sortByCountDesc (l : List (String × ℕ)) : List (String × ℕ) :=
  l.foldl (fun acc x => insertByCount x acc) []

/-- `_extract_feature_gaps`: tally categories over all records, take the three
most common, keep those with count > 1, confidence `min(0.9, 0.4 + 0.2·count)`. -/
def extract_feature_gaps (scored_results : List CompetitorRecord) : List FeatureGap :=
  let feature_mentions := scored_results.foldl tallyRecord []
  ((sortByCountDesc feature_mentions).take 3).filterMap
    (fun p =>
      if p.2 > 1 then
        some { feature := p.1, frequency := p.2,
               confidence := min (9 / 10 : ℚ) (4 / 10 + p.2 * (2 / 10)) }
      else none)

/-- The `str()` of the `KeyError` raised when the empty-input metrics dict is
asked for its missing `high_quality_competitors` key. -/
def keyErrorHQ : String := apos ++ "high_quality_competitors" ++ apos

/-- `_identify_market_gaps`: the five gap rules in source order.  Rule 5 reads
`market_metrics["high_quality_competitors"]`, a `KeyError` when the key is
absent (empty-input metrics). -/
def identify_market_gaps (scored_results : List CompetitorRecord)
    (uniqueness_score : ℚ) (market_metrics : MarketMetrics) :
    Except String (List Gap) := do
  let gaps1 : List Gap :=
    if uniqueness_score > 7 / 10 ∧ market_metrics.similarity_stats.max < 6 / 10 then
      [{ gap_type := "Blue Ocean Opportunity"
         description := "High uniqueness with low competitor similarity indicates unexplored market space"
         confidence := 9 / 10
         priority := "Very High"
         potential_impact := "Market Creation"
         evidence := "Uniqueness: " ++ fmtFixed 2 uniqueness_score ++ ", Max similarity: "
           ++ fmtFixed 2 market_metrics.similarity_stats.max }]
    else []
  let github_count := getCount market_metrics.source_distribution "github"
  let gaps2 : List Gap :=
    if github_count < 3 then
      [{ gap_type := "Technical Implementation Gap"
         description := "Limited open-source implementations suggest barriers to entry or untapped technical opportunities"
         confidence := 7 / 10
         priority := "High"
         potential_impact := "Technical Differentiation"
         evidence := "Only " ++ toString github_count ++ " GitHub repositories found" }]
    else []
  let gaps3 : List Gap :=
    (extract_feature_gaps scored_results).map
      (fun g =>
        { gap_type := "Feature Gap"
          description := "Missing capability: " ++ g.feature
          confidence := g.confidence
          priority := "Medium"
          potential_impact := "Product Differentiation"
          evidence := "Mentioned in " ++ toString g.frequency ++ " competitor analyses" })
  let gaps4 : List Gap :=
    if market_metrics.similarity_stats.std < 15 / 100 then
      [{ gap_type := "Positioning Opportunity"
         description := "Low variance in competitor approaches suggests room for differentiated positioning"
         confidence := 6 / 10
         priority := "Medium"
         potential_impact := "Market Positioning"
         evidence := "Similarity standard deviation: "
           ++ fmtFixed 3 market_metrics.similarity_stats.std }]
    else []
  let hq ← match market_metrics.high_quality_competitors with
    | some n => Except.ok n
    | none => Except.error keyErrorHQ
  let gaps5 : List Gap :=
    if hq < 2 then
      [{ gap_type := "Quality Leadership Opportunity"
         description := "Few high-quality competitors present opportunity for market leadership"
         confidence := 8 / 10
         priority := "High"
         potential_impact := "Market Leadership"
         evidence := "Only " ++ toString hq ++ " high-quality competitors identified" }]
    else []
  pure (gaps1 ++ gaps2 ++ gaps3 ++ gaps4 ++ gaps5)

/-! ## Opportunity scoring -/

structure ScoreComponents where
  uniqueness_contribution : ℚ
  similarity_advantage : ℚ
  competition_advantage : ℚ
  market_saturation_boost : ℚ
deriving DecidableEq, Repr

structure OpportunityScore where
  overall_score : ℚ
  components : ScoreComponents
  interpretation : String
  confidence_level : String
deriving DecidableEq, Repr

/-- `_interpret_opportunity_score`. -/
def interpret_opportunity_score (score : ℚ) : String :=
  if score ≥ 85 then
    "Exceptional opportunity - dominant market potential with high differentiation"
  else if score ≥ 70 then
    "Strong opportunity - significant market potential with good differentiation"
  else if score ≥ 55 then
    "Moderate opportunity - viable market entry with strategic positioning required"
  else if score ≥ 40 then
    "Limited opportunity - challenging market with established competition"
  else
    "Low opportunity - saturated market with strong incumbents"

/-- `_calculate_confidence_level`. -/
def calculate_confidence_level (market_metrics : MarketMetrics) : String :=
  let total_data_points := market_metrics.total_competitors
  let source_diversity := market_metrics.source_distribution.length
  if total_data_points ≥ 10 ∧ source_diversity ≥ 3 then
    "High confidence - comprehensive data across multiple sources"
  else if total_data_points ≥ 5 ∧ source_diversity ≥ 2 then
    "Medium confidence - adequate data from multiple sources"
  else if total_data_points ≥ 3 then
    "Low confidence - limited data available for analysis"
  else
    "Very low confidence - insufficient data for reliable analysis"

/-- The saturation-label lookup table of `_calculate_opportunity_score`
(`.get(saturation, 7.5)`). -/
def saturationPoints (saturation : String) : ℚ :=
  if saturation = "Low market saturation" then 15
  else if saturation = "Moderate market saturation" then 10
  else if saturation = "High market saturation" then 5
  else if saturation = "Very high market saturation" then 0
  else 15 / 2

/-- `_calculate_opportunity_score`.  Reads
`market_metrics["high_quality_competitors"]` unconditionally (before the
`total_competitors == 0` test), so the absent key is a `KeyError`. -/
def calculate_opportunity_score (uniqueness_score : ℚ) (market_metrics : MarketMetrics)
    (saturation : String) : Except String OpportunityScore := do
  let uniqueness_points := uniqueness_score * 40
  let avg_similarity := market_metrics.similarity_stats.avg
  let similarity_points := (1 - avg_similarity) * 25
  let total_competitors := market_metrics.total_competitors
  let high_quality ← match market_metrics.high_quality_competitors with
    | some n => Except.ok n
    | none => Except.error keyErrorHQ
  let competition_points : ℚ :=
    if total_competitors = 0 then 20
    else (1 - (high_quality : ℚ) / (total_competitors : ℚ)) * 20
  let saturation_points := saturationPoints saturation
  let raw_score := uniqueness_points + similarity_points + competition_points + saturation_points
  let final_score := min 100 (max 0 raw_score)
  pure
    { overall_score := roundTo 1 final_score
      components :=
        { uniqueness_contribution := roundTo 1 uniqueness_points
          similarity_advantage := roundTo 1 similarity_points
          competition_advantage := roundTo 1 competition_points
          market_saturation_boost := roundTo 1 saturation_points }
      interpretation := interpret_opportunity_score final_score
      confidence_level := calculate_confidence_level market_metrics }

/-- `_determine_market_position`. -/
def determine_market_position (uniqueness_score : ℚ) (market_metrics : MarketMetrics) :
    String :=
  let avg_similarity := market_metrics.similarity_stats.avg
  let total_competitors := market_metrics.total_competitors
  if uniqueness_score > 8 / 10 then
    "Pioneer - create new market category and establish standards"
  else if uniqueness_score > 6 / 10 ∧ avg_similarity < 1 / 2 then
    "Differentiator - focus on unique value proposition and innovation"
  else if total_competitors < 5 then
    "Fast follower - improve on existing solutions with better execution"
  else if avg_similarity < 4 / 10 then
    "Niche specialist - target underserved segments with focused features"
  else
    "Cost leader - compete on efficiency, pricing, or specific use cases"

/-! ## Competitive landscape -/

structure CompetitorInfo where
  name : String
  source : String
  similarity : ℚ
  threat_level : String
  quality_indicators : List String
  url : String
  analysis : String
deriving DecidableEq, Repr

/-- The landscape dict of `_analyze_competitive_landscape`.  `threat_summary`
is `Option` because the empty-input branch returns a dict without that key. -/
structure CompetitiveAnalysis where
  competitive_threats : List CompetitorInfo
  market_leaders : List CompetitorInfo
  weak_competitors : List CompetitorInfo
  threat_summary : Option String
deriving DecidableEq, Repr

/-- The per-record body of the loop in `_analyze_competitive_landscape`:
threat level starts Low, similarity > 0.7 gives High (plus an indicator),
else similarity > 0.5 gives Medium; for github records, stars > 1000 forces
High and adds an indicator, while 100 < stars ≤ 1000 only adds an indicator. -/
def competitorInfo (r : CompetitorRecord) : CompetitorInfo :=
  let similarity := r.similarity.getD 0
  let source := r.source.getD ""
  let level1 : String := if similarity > 7 / 10 then "High"
    else if similarity > 1 / 2 then "Medium" else "Low"
  let indicators1 : List String :=
    if similarity > 7 / 10 then ["High similarity (" ++ fmtPercent1 similarity ++ ")"] else []
  let stars := r.stars.getD 0
  let level2 : String :=
    if source = "github" ∧ stars > 1000 then "High" else level1
  let indicators2 : List String :=
    if source = "github" ∧ stars > 1000 then
      indicators1 ++ [toString stars ++ " GitHub stars"]
    else if source = "github" ∧ stars > 100 then
      indicators1 ++ [toString stars ++ " GitHub stars"]
    else indicators1
  { name := r.title.getD "Unknown"
    source := source
    similarity := similarity
    threat_level := level2
    quality_indicators := indicators2
    url := r.url.getD ""
    analysis := r.comment.getD "No analysis available" }

/-- `_analyze_competitive_landscape`: bucket every record by threat level /
quality indicators, preserving input order within each bucket. -/
def analyze_competitive_landscape (scored_results : List CompetitorRecord) :
    CompetitiveAnalysis :=
  if scored_results.isEmpty then
    { competitive_threats := [], market_leaders := [], weak_competitors := []
      threat_summary := none }
  else
    let infos := scored_results.map competitorInfo
    let threats := infos.filter (fun i => i.threat_level = "High")
    let leaders := infos.filter (fun i => ¬ i.threat_level = "High" ∧ ¬ i.quality_indicators.isEmpty)
    let weak := infos.filter (fun i => ¬ i.threat_level = "High" ∧ i.quality_indicators.isEmpty)
    { competitive_threats := threats
      market_leaders := leaders
      weak_competitors := weak
      threat_summary := some (toString threats.length ++ " high-threat competitors identified") }

/-! ## Aggregate analysis, recommendations and the public entry point -/

structure Analysis where
  market_metrics : MarketMetrics
  gaps_identified : List Gap
  opportunity_score : OpportunityScore
  market_position : String
  competitive_analysis : CompetitiveAnalysis
deriving DecidableEq, Repr

structure Recommendation where
  type : String
  priority : String
  recommendation : String
deriving DecidableEq, Repr

/-- `_generate_strategic_recommendations`. -/
def generate_strategic_recommendations (analysis : Analysis) : List Recommendation :=
  let opportunity_score := analysis.opportunity_score.overall_score
  let gaps := analysis.gaps_identified
  let market_position := analysis.market_position
  let competitive_threats := analysis.competitive_analysis.competitive_threats.length
  let recs1 : List Recommendation :=
    if opportunity_score > 75 then
      [{ type := "Strategic Timing", priority := "Very High"
         recommendation := "Move aggressively to capture market opportunity before window closes. Consider rapid MVP development and early customer acquisition." }]
    else if opportunity_score > 50 then
      [{ type := "Strategic Timing", priority := "High"
         recommendation := "Solid market opportunity exists. Develop comprehensive go-to-market strategy with differentiated positioning." }]
    else []
  let high_priority_gaps := gaps.filter (fun g => g.priority = "Very High" ∨ g.priority = "High")
  let recs2 : List Recommendation :=
    (high_priority_gaps.take 3).map
      (fun g =>
        { type := "Product Development", priority := g.priority
          recommendation := "Address " ++ g.gap_type ++ ": " ++ g.description
            ++ ". Potential impact: " ++ g.potential_impact })
  let recs3 : List Recommendation :=
    if competitive_threats > 3 then
      [{ type := "Competitive Strategy", priority := "High"
         recommendation := "High competitive threat detected. Focus on rapid differentiation and customer lock-in strategies." }]
    else if competitive_threats = 0 then
      [{ type := "Market Education", priority := "Medium"
         recommendation := "No direct competitors found. Budget for market education and category creation efforts." }]
    else []
  let recs4 : List Recommendation :=
    [{ type := "Market Positioning", priority := "Medium"
       recommendation := "Adopt " ++ apos ++ market_position ++ apos
         ++ " strategy. This aligns with your market opportunity and competitive landscape." }]
  let recs5 : List Recommendation :=
    if opportunity_score > 60 then
      [{ type := "Resource Allocation", priority := "Medium"
         recommendation := "Strong opportunity justifies significant resource investment. Consider seeking funding or partnerships for acceleration." }]
    else []
  recs1 ++ recs2 ++ recs3 ++ recs4 ++ recs5

/-- `_perform_comprehensive_gap_analysis`, in the source's call order (so the
first raised error is the one that surfaces). -/
def perform_comprehensive_gap_analysis (scored_results : List CompetitorRecord)
    (uniqueness_score : ℚ) (saturation : String) : Except String Analysis := do
  let market_metrics := calculate_market_metrics scored_results uniqueness_score saturation
  let gaps_identified ← identify_market_gaps scored_results uniqueness_score market_metrics
  let opportunity_score ← calculate_opportunity_score uniqueness_score market_metrics saturation
  let market_position := determine_market_position uniqueness_score market_metrics
  let competitive_analysis := analyze_competitive_landscape scored_results
  pure
    { market_metrics := market_metrics
      gaps_identified := gaps_identified
      opportunity_score := opportunity_score
      market_position := market_position
      competitive_analysis := competitive_analysis }

/-- The result dict of `analyze_market_gaps`.  The success and failure branches
return different key sets, modelled with `Option` fields. -/
structure AnalyzeResult where
  server_name : Option String
  analysis_timestamp : Option String
  market_analysis : Option Analysis
  recommendations : Option (List Recommendation)
  success : Bool
  error : Option String
deriving DecidableEq, Repr

/-- `analyze_market_gaps`, the public entry point.  The wall-clock
`datetime.now().isoformat()` is modelled as the explicit `now` argument (an
oracle for the ambient time effect). -/
def analyze_market_gaps (now : String) (scored_results : List CompetitorRecord)
    (uniqueness_score : ℚ) (saturation : String) : AnalyzeResult :=
  match perform_comprehensive_gap_analysis scored_results uniqueness_score saturation with
  | Except.ok analysis =>
      { server_name := some "Enhanced Research Gap Detection Server"
        analysis_timestamp := some now
        market_analysis := some analysis
        recommendations := some (generate_strategic_recommendations analysis)
        success := true
        error := none }
  | Except.error e =>
      { server_name := none
        analysis_timestamp := none
        market_analysis := none
        recommendations := none
        success := false
        error := some e }

/-! ## mcp_runner: template resolver and flow runner

Values flowing through the runner are JSON-like Python values.  `eval_template`
in the source passes the template interior to Python `eval` with the context as
locals; the only expression forms the flows (and the spec) use are dotted-path
lookups rooted at a context name, and only those are modelled here — any other
interior is mapped to an error.  Attribute access on a `DotDict` is key lookup
(`KeyError` when missing); attribute access on a non-dict is an
`AttributeError`.  (The shadowing of dict method names and `DotDict`'s
cache-on-read are not modelled; no claim depends on them.) -/

inductive PyVal where
  | str : String → PyVal
  | num : ℚ → PyVal
  | bool : Bool → PyVal
  | list : List PyVal → PyVal
  | dict : List (String × PyVal) → PyVal
  | none : PyVal
deriving Repr

/-- The opening template marker `$` followed by two braces. -/
def tmplOpen : String := "$\x7b\x7b"

/-- The closing template marker, two braces. -/
def tmplClose : String := "\x7d\x7d"

/-- Build a template string from an interior expression. -/
def mkTemplate (interior : String) : String := tmplOpen ++ interior ++ tmplClose

/-- `lp.isPrefixOf l` on char lists, written out so its unfolding lemmas are
local to this development. -/
def startsWithL (p l : List Char) : Bool :=
  match p, l with
  | [], _ => true
  | _ :: _, [] => false
  | a :: ps, b :: ls => a = b && startsWithL ps ls

/-- Suffix test on char lists. -/
def endsWithL (p l : List Char) : Bool := startsWithL p.reverse l.reverse

/-- Python identifier test (ASCII), for the dotted-path components. -/
def isIdentChar (c : Char) : Bool :=
  (Char.ofNat 97 ≤ c ∧ c ≤ Char.ofNat 122) ∨ (Char.ofNat 65 ≤ c ∧ c ≤ Char.ofNat 90) ∨
    (Char.ofNat 48 ≤ c ∧ c ≤ Char.ofNat 57) ∨ c = Char.ofNat 95

def isIdent (s : String) : Bool :=
  ¬ s.data.isEmpty ∧ s.data.all isIdentChar ∧
    ¬ (Char.ofNat 48 ≤ s.data.headD (Char.ofNat 95) ∧ s.data.headD (Char.ofNat 95) ≤ Char.ofNat 57)

/-- Split a char list at dots (the `.` operators of a dotted-path expression). -/
def splitDots : List Char → List Char → List (List Char)
  | [], cur => [cur.reverse]
  | c :: cs, cur =>
      if c = Char.ofNat 46 then cur.reverse :: splitDots cs []
      else splitDots cs (c :: cur)

/-- Strip surrounding Python whitespace from a token. -/
def trimTok (cs : List Char) : List Char :=
  ((cs.dropWhile isPySpace).reverse.dropWhile isPySpace).reverse

/-- Parse a dotted-path expression `name(.name)*` (whitespace-tolerant, as
Python `eval` is) into its identifier chain. -/
def parsePath (interior : String) : Option (List String) :=
  let toks := (splitDots interior.data []).map (fun t => String.mk (trimTok t))
  if toks.all isIdent then some toks else Option.none

/-- `DotDict.__getattr__` as seen through `eval`'s attribute access: key lookup
in a dict value; missing key is a `KeyError`, non-dict base an `AttributeError`. -/
def attrGet (v : PyVal) (key : String) : Except String PyVal :=
  match v with
  | PyVal.dict kvs =>
      match kvs.lookup key with
      | some w => Except.ok w
      | Option.none => Except.error ("KeyError: " ++ apos ++ key ++ apos)
  | _ => Except.error ("AttributeError: " ++ key)

/-- Evaluate a dotted-path expression against the `eval` locals context
(the first name resolves in the context, a `NameError` when absent). -/
def evalDotExpr (interior : String) (ctx : List (String × PyVal)) : Except String PyVal :=
  match parsePath interior with
  | some (root :: rest) =>
      match ctx.lookup root with
      | some v => rest.foldlM attrGet v
      | Option.none => Except.error ("NameError: name " ++ apos ++ root ++ apos ++ " is not defined")
  | _ => Except.error ("unsupported template expression: " ++ interior)

/-- `eval_template` from `src/mcp_runner.py`: a string starting with the
`$` + two-brace marker and ending with two braces is stripped
(`val[3:-2]`) and evaluated; every other value passes through unchanged. -/
def eval_template (val : PyVal) (ctx : List (String × PyVal)) : Except String PyVal :=
  match val with
  | PyVal.str s =>
      if startsWithL tmplOpen.data s.data ∧ endsWithL tmplClose.data s.data then
        evalDotExpr (String.mk ((s.data.drop 3).take ((s.data.drop 3).length - 2))) ctx
      else Except.ok val
  | v => Except.ok v

/-- A step of a flow file: `id`, `uses` (dotted callable reference) and
templated `args`. -/
structure StepSpec where
  id : String
  uses : String
  args : List (String × PyVal)

/-- The `eval` locals context built by `run_flow`:
`{"inputs": DotDict(inputs), "steps": DotDict(steps)}`. -/
def mkCtx (inputs : PyVal) (steps : List (String × PyVal)) : List (String × PyVal) :=
  [("inputs", inputs), ("steps", PyVal.dict steps)]

/-- Python dict assignment `d[k] = v`: overwrite in place, else append. -/
def assocSet (l : List (String × PyVal)) (k : String) (v : PyVal) : List (String × PyVal) :=
  match l with
  | [] => [(k, v)]
  | (k0, v0) :: rest => if k0 = k then (k, v) :: rest else (k0, v0) :: assocSet rest k v

/-- Resolve a step's `args` mapping through `eval_template`. -/
def resolveArgs (args : List (String × PyVal)) (ctx : List (String × PyVal)) :
    Except String (List (String × PyVal)) :=
  args.mapM (fun p => do pure (p.1, ← eval_template p.2 ctx))

/-- A callable registry entry: keyword args in, value out (exceptions
propagate).  Models `import_func` + `func(**args)`. -/
def Registry : Type := String → Option (List (String × PyVal) → Except String PyVal)

/-- The step loop of `run_flow`: execute steps in declared order, recording
each output as `ctx["steps"][step_id] = {"output": output}`. -/
def runSteps (registry : Registry) : List StepSpec → PyVal → List (String × PyVal) →
    Except String (List (String × PyVal))
  | [], _, steps => Except.ok steps
  | s :: rest, inputs, steps => do
      let f ← match registry s.uses with
        | some f => Except.ok f
        | Option.none => Except.error ("ModuleNotFoundError: " ++ s.uses)
      let rargs ← resolveArgs s.args (mkCtx inputs steps)
      let output ← f rargs
      runSteps registry rest inputs (assocSet steps s.id (PyVal.dict [("output", output)]))

/-- `run_flow` from `src/mcp_runner.py` (the YAML file is modelled as the
already-parsed list of steps): returns the final `ctx["steps"]` mapping. -/
def run_flow (registry : Registry) (flow : List StepSpec) (inputs : PyVal) :
    Except String (List (String × PyVal)) :=
  runSteps registry flow inputs []

/-! ## similarity_scorer: in-place mutation of caller records

`score_similarity` iterates the caller's `market_results` list, writes
`similarity`/`comment` into each element dict, and appends the very same
object to `scored_results`.  Object identity is made explicit with a heap
model: a store of records plus lists of references (store indices).  The LLM
call + JSON parsing is an oracle `llm`; `Option.none` is the exception path of
the source's `try`, which writes `similarity = 0.0, comment = "Scoring failed"`. -/

/-- The in-place mutation performed on one record dict. -/
def scoreMutate (llm : CompetitorRecord → Option (ℚ × String)) (r : CompetitorRecord) :
    CompetitorRecord :=
  match llm r with
  | some (s, c) => { r with similarity := some s, comment := some c }
  | Option.none => { r with similarity := some 0, comment := some "Scoring failed" }

/-- One loop iteration: mutate the record behind reference `ref` in the store. -/
def scoreStep (llm : CompetitorRecord → Option (ℚ × String)) (store : List CompetitorRecord)
    (ref : ℕ) : List CompetitorRecord :=
  match store[ref]? with
  | some r => store.set ref (scoreMutate llm r)
  | Option.none => store

/-- `score_similarity` from `src/agents/similarity_scorer/similarity_scorer.py`
in the heap model.  Returns the mutated store together with the result dict
`(scored_results references, uniqueness_score, saturation)`; `scored_results`
is built by appending each iterated reference, hence it is the input reference
list itself. -/
def score_similarity (llm : CompetitorRecord → Option (ℚ × String))
    (store : List CompetitorRecord) (market_results : List ℕ) :
    List CompetitorRecord × List ℕ × ℚ × String :=
  let store' := market_results.foldl (scoreStep llm) store
  let scored_results := market_results
  let similarities := scored_results.map
    (fun ref => ((store'[ref]?).bind (fun r => r.similarity)).getD 0)
  let max_sim := if similarities.isEmpty then 0 else listMax similarities
  let avg_sim := if similarities.isEmpty then 0 else listMean similarities
  let uniqueness_score := roundTo 2 ((1 - max_sim) * (1 - avg_sim))
  let saturation_label :=
    if avg_sim > 65 / 100 then "High market saturation"
    else if avg_sim > 35 / 100 then "Moderate market saturation"
    else "Low market saturation"
  (store', scored_results, roundTo 2 uniqueness_score, saturation_label)

/-! ## Arithmetic helper lemmas -/

theorem round_rat_nonneg {q : ℚ} (h : 0 ≤ q) : 0 ≤ round q := by
  rw [round_eq]
  exact Int.floor_nonneg.mpr (by linarith)

theorem round_rat_mono {a b : ℚ} (h : a ≤ b) : round a ≤ round b := by
  rw [round_eq, round_eq]
  exact Int.floor_mono (by linarith)

theorem roundTo_nonneg (d : ℕ) {q : ℚ} (h : 0 ≤ q) : 0 ≤ roundTo d q := by
  unfold roundTo
  have h1 : (0 : ℤ) ≤ round (q * 10 ^ d) := round_rat_nonneg (by positivity)
  have h2 : (0 : ℚ) ≤ ((round (q * 10 ^ d) : ℤ) : ℚ) := by exact_mod_cast h1
  positivity

theorem roundTo_le_nat (d : ℕ) {q : ℚ} (n : ℕ) (h : q ≤ n) : roundTo d q ≤ n := by
  unfold roundTo
  rw [div_le_iff₀ (by positivity)]
  have h1 : round (q * 10 ^ d) ≤ round ((n : ℚ) * 10 ^ d) :=
    round_rat_mono (by nlinarith [pow_pos (show (0:ℚ) < 10 by norm_num) d])
  have h2 : ((n : ℚ) * 10 ^ d) = (((n * 10 ^ d : ℕ) : ℤ) : ℚ) := by push_cast; ring
  have h3 : round ((n : ℚ) * 10 ^ d) = ((n * 10 ^ d : ℕ) : ℤ) := by
    rw [h2, round_intCast]
  calc ((round (q * 10 ^ d) : ℤ) : ℚ) ≤ ((round ((n : ℚ) * 10 ^ d) : ℤ) : ℚ) := by
        exact_mod_cast h1
    _ = (n : ℚ) * 10 ^ d := by rw [h3]; push_cast; ring

theorem listMean_nonneg {xs : List ℚ} (h : ∀ x ∈ xs, 0 ≤ x) : 0 ≤ listMean xs := by
  unfold listMean
  exact div_nonneg (List.sum_nonneg h) (by positivity)

theorem listMean_le_one {xs : List ℚ} (h : ∀ x ∈ xs, x ≤ 1) : listMean xs ≤ 1 := by
  unfold listMean
  rcases eq_or_ne xs [] with rfl | hne
  · simp
  · have hlen : (0 : ℚ) < xs.length := by
      have := List.length_pos.mpr hne
      exact_mod_cast this
    rw [div_le_one hlen]
    have := List.sum_le_card_nsmul xs 1 h
    simpa using this

/-! ## C8: high-quality competitor count -/

/-- The claim's membership predicate for a high-quality competitor. -/
def hqPred (r : CompetitorRecord) : Bool :=
  decide ((r.source.getD "unknown" = "github" ∧ r.stars.getD 0 > 100) ∨ r.similarity.getD 0 > 7 / 10)

theorem hq_foldl_eq_countP_aux (records : List CompetitorRecord) (acc : ℕ) :
    records.foldl hqStep acc = acc + records.countP hqPred := by
  induction records generalizing acc with
  | nil => simp
  | cons r rest ih =>
      rw [List.foldl_cons, ih, List.countP_cons]
      unfold hqStep hqPred
      by_cases h1 : r.source.getD "unknown" = "github" ∧ r.stars.getD 0 > 100
      · simp [h1]
        omega
      · by_cases h2 : r.similarity.getD 0 > 7 / 10
        · simp [h1, h2]
          omega
        · simp [h1, h2]

theorem hq_foldl_eq_countP (records : List CompetitorRecord) :
    records.foldl hqStep 0 = records.countP hqPred := by
  simpa using hq_foldl_eq_countP_aux records 0

/-- Claim C8: in the market-metrics computation, the high-quality competitor
count equals the number of records satisfying
`(source = "github" ∧ stars > 100) ∨ similarity > 0.7`, each record counted at
most once even when both disjuncts hold, and therefore
`high_quality_competitors ≤ total_competitors`. -/
theorem C8_high_quality_count (records : List CompetitorRecord) (u : ℚ) (sat : String)
    (h : records ≠ []) :
    (calculate_market_metrics records u sat).high_quality_competitors
        = some (records.countP hqPred)
      ∧ records.countP hqPred ≤ records.length
      ∧ (calculate_market_metrics records u sat).total_competitors = records.length := by
  have hne : records.isEmpty = false := by
    cases records with
    | nil => exact absurd rfl h
    | cons a as => rfl
  refine ⟨?_, List.countP_le_length _, ?_⟩ <;>
    · unfold calculate_market_metrics
      rw [hne]
      simp only [Bool.false_eq_true, if_false, hq_foldl_eq_countP]

/-- Witness for C8 on a concrete two-record input: one record qualifies via
both disjuncts yet is counted once. -/
def recGithubHot : CompetitorRecord :=
  { source := some "github", title := some "t", url := none, snippet := none,
    stars := some 500, similarity := some (8 / 10), comment := none }

def recWeak : CompetitorRecord :=
  { source := some "ddg", title := none, url := none, snippet := none,
    stars := none, similarity := some (1 / 10), comment := none }

theorem C8_high_quality_count_witness :
    (calculate_market_metrics [recGithubHot, recWeak] (1 / 2) "Low market saturation").high_quality_competitors
        = some ([recGithubHot, recWeak].countP hqPred)
      ∧ [recGithubHot, recWeak].countP hqPred ≤ [recGithubHot, recWeak].length
      ∧ (calculate_market_metrics [recGithubHot, recWeak] (1 / 2) "Low market saturation").total_competitors
        = [recGithubHot, recWeak].length :=
  C8_high_quality_count [recGithubHot, recWeak] (1 / 2) "Low market saturation" (by decide)

/-! ## C1: the explicitly-handled empty input still raises downstream -/

/-- Claim C1 (code bug): with `records = []` the metrics helper does return the
zeroed snapshot the spec describes, but that snapshot lacks the
`high_quality_competitors` key, so gap identification (rule 5) raises
`KeyError('high_quality_competitors')` instead of running through, the whole
analysis errors, and the public entry point reports `success = false`. -/
theorem C1_empty_input_raises :
    calculate_market_metrics [] (4 / 5) "Low market saturation" =
      { total_competitors := 0
        source_distribution := []
        similarity_stats := { avg := 0, max := 0, min := 0, std := 0 }
        high_quality_competitors := none
        uniqueness_score := 4 / 5
        saturation_level := "Low market saturation" }
    ∧ identify_market_gaps [] (4 / 5)
        (calculate_market_metrics [] (4 / 5) "Low market saturation") = Except.error keyErrorHQ
    ∧ perform_comprehensive_gap_analysis [] (4 / 5) "Low market saturation"
        = Except.error keyErrorHQ
    ∧ (analyze_market_gaps "2026-01-01T00:00:00" [] (4 / 5) "Low market saturation").success
        = false := by
  refine ⟨rfl, rfl, rfl, rfl⟩

/-! ## C2: opportunity-score bounds -/

theorem saturationPoints_bounds (sat : String) :
    0 ≤ saturationPoints sat ∧ saturationPoints sat ≤ 15 := by
  unfold saturationPoints
  split_ifs <;> norm_num

/-- Inversion of `calculate_opportunity_score` on metrics whose
`high_quality_competitors` key is present. -/
theorem calculate_opportunity_score_ok (u : ℚ) (m : MarketMetrics) (sat : String) (n : ℕ)
    (h : m.high_quality_competitors = some n) :
    calculate_opportunity_score u m sat = Except.ok
      { overall_score := roundTo 1 (min 100 (max 0 (u * 40 + (1 - m.similarity_stats.avg) * 25
          + (if m.total_competitors = 0 then (20 : ℚ)
             else (1 - (n : ℚ) / (m.total_competitors : ℚ)) * 20)
          + saturationPoints sat)))
        components :=
          { uniqueness_contribution := roundTo 1 (u * 40)
            similarity_advantage := roundTo 1 ((1 - m.similarity_stats.avg) * 25)
            competition_advantage := roundTo 1
              (if m.total_competitors = 0 then (20 : ℚ)
               else (1 - (n : ℚ) / (m.total_competitors : ℚ)) * 20)
            market_saturation_boost := roundTo 1 (saturationPoints sat) }
        interpretation := interpret_opportunity_score (min 100 (max 0 (u * 40
          + (1 - m.similarity_stats.avg) * 25
          + (if m.total_competitors = 0 then (20 : ℚ)
             else (1 - (n : ℚ) / (m.total_competitors : ℚ)) * 20)
          + saturationPoints sat)))
        confidence_level := calculate_confidence_level m } := by
  unfold calculate_opportunity_score
  rw [h]
  rfl

/-- Claim C2: whenever the opportunity score is computed (i.e. the computation
succeeds) from records whose similarity values lie in `[0,1]` and a uniqueness
score in `[0,1]`, the overall score lies in `[0,100]` and each of the four
reported component contributions is non-negative and bounded by its band
maximum (40 / 25 / 20 / 15). -/
theorem C2_opportunity_score_bounds (records : List CompetitorRecord) (u : ℚ) (sat : String)
    (s : OpportunityScore)
    (hsim : ∀ r ∈ records, 0 ≤ r.similarity.getD 0 ∧ r.similarity.getD 0 ≤ 1)
    (hu : 0 ≤ u ∧ u ≤ 1)
    (hok : calculate_opportunity_score u (calculate_market_metrics records u sat) sat
        = Except.ok s) :
    (0 ≤ s.overall_score ∧ s.overall_score ≤ 100)
      ∧ (0 ≤ s.components.uniqueness_contribution ∧ s.components.uniqueness_contribution ≤ 40)
      ∧ (0 ≤ s.components.similarity_advantage ∧ s.components.similarity_advantage ≤ 25)
      ∧ (0 ≤ s.components.competition_advantage ∧ s.components.competition_advantage ≤ 20)
      ∧ (0 ≤ s.components.market_saturation_boost ∧ s.components.market_saturation_boost ≤ 15) := by
  cases records with
  | nil =>
      exfalso
      simp [calculate_market_metrics, calculate_opportunity_score] at hok
  | cons a as =>
      have hm := C8_high_quality_count (a :: as) u sat (by simp)
      set m := calculate_market_metrics (a :: as) u sat with hmdef
      -- the metrics of a nonempty list: extract the fields the score reads
      have hmne : (a :: as).isEmpty = false := rfl
      have havg : m.similarity_stats.avg
          = roundTo 3 (listMean ((a :: as).map (fun r => r.similarity.getD 0))) := by
        rw [hmdef]; unfold calculate_market_metrics; rw [hmne]; rfl
      have htotal : m.total_competitors = (a :: as).length := hm.2.2
      have hhq : m.high_quality_competitors = some ((a :: as).countP hqPred) := hm.1
      -- invert hok
      rw [calculate_opportunity_score_ok u m sat ((a :: as).countP hqPred) hhq] at hok
      have hs := Except.ok.inj hok
      -- bounds on the averaged similarity
      have havg0 : 0 ≤ m.similarity_stats.avg := by
        rw [havg]
        refine roundTo_nonneg 3 (listMean_nonneg ?_)
        intro x hx
        obtain ⟨r, hr, rfl⟩ := List.mem_map.mp hx
        exact (hsim r hr).1
      have havg1 : m.similarity_stats.avg ≤ 1 := by
        rw [havg]
        refine roundTo_le_nat 3 1 ?_
        have h1 : listMean ((a :: as).map (fun r => r.similarity.getD 0)) ≤ 1 := by
          refine listMean_le_one ?_
          intro x hx
          obtain ⟨r, hr, rfl⟩ := List.mem_map.mp hx
          exact (hsim r hr).2
        simpa using h1
      -- bounds on the competition density
      have hdens0 : (0 : ℚ) ≤ ((a :: as).countP hqPred : ℚ) / (m.total_competitors : ℚ) := by
        positivity
      have hdens1 : ((a :: as).countP hqPred : ℚ) / (m.total_competitors : ℚ) ≤ 1 := by
         rw [htotal]
         rw [div_le_one (by exact_mod_cast Nat.succ_pos as.length)]
         exact_mod_cast hm.2.1
      have hsat := saturationPoints_bounds sat
      -- the raw clamp
      have hclamp0 : (0 : ℚ) ≤ min 100 (max 0 (u * 40 + (1 - m.similarity_stats.avg) * 25 +
          (if m.total_competitors = 0 then (20 : ℚ)
           else (1 - ((a :: as).countP hqPred : ℚ) / (m.total_competitors : ℚ)) * 20)
          + saturationPoints sat)) := le_min (by norm_num) (le_max_left 0 _)
      have hclamp100 : min 100 (max 0 (u * 40 + (1 - m.similarity_stats.avg) * 25 +
          (if m.total_competitors = 0 then (20 : ℚ)
           else (1 - ((a :: as).countP hqPred : ℚ) / (m.total_competitors : ℚ)) * 20)
          + saturationPoints sat)) ≤ 100 := min_le_left _ _
      rw [← hs]
      refine ⟨⟨roundTo_nonneg 1 hclamp0, roundTo_le_nat 1 100 hclamp100⟩,
        ⟨roundTo_nonneg 1 (by nlinarith [hu.1]),
          roundTo_le_nat 1 40 (by push_cast; nlinarith [hu.2])⟩,
        ⟨roundTo_nonneg 1 (by nlinarith), roundTo_le_nat 1 25 (by push_cast; nlinarith)⟩,
        ⟨?_, ?_⟩,
        ⟨roundTo_nonneg 1 hsat.1, roundTo_le_nat 1 15 hsat.2⟩⟩
      · refine roundTo_nonneg 1 ?_
        split_ifs with h
        · norm_num
        · nlinarith
      · refine roundTo_le_nat 1 20 ?_
        split_ifs with h
        · norm_num
        · nlinarith

/-- Witness input for C2: a single ddg record with similarity 1/2. -/
def recHalf : CompetitorRecord :=
  { source := some "ddg", title := none, url := none, snippet := none,
    stars := none, similarity := some (1 / 2), comment := some "x" }

/-- The opportunity score computed for `[recHalf]` with uniqueness 1/2. -/
def scoreHalf : OpportunityScore :=
  { overall_score := 135 / 2
    components :=
      { uniqueness_contribution := 20, similarity_advantage := 25 / 2,
        competition_advantage := 20, market_saturation_boost := 15 }
    interpretation := "Moderate opportunity - viable market entry with strategic positioning required"
    confidence_level := "Very low confidence - insufficient data for reliable analysis" }

theorem C2_opportunity_score_bounds_witness :
    calculate_opportunity_score (1 / 2)
        (calculate_market_metrics [recHalf] (1 / 2) "Low market saturation")
        "Low market saturation" = Except.ok scoreHalf
      ∧ ((0 ≤ scoreHalf.overall_score ∧ scoreHalf.overall_score ≤ 100)
        ∧ (0 ≤ scoreHalf.components.uniqueness_contribution
            ∧ scoreHalf.components.uniqueness_contribution ≤ 40)
        ∧ (0 ≤ scoreHalf.components.similarity_advantage
            ∧ scoreHalf.components.similarity_advantage ≤ 25)
        ∧ (0 ≤ scoreHalf.components.competition_advantage
            ∧ scoreHalf.components.competition_advantage ≤ 20)
        ∧ (0 ≤ scoreHalf.components.market_saturation_boost
            ∧ scoreHalf.components.market_saturation_boost ≤ 15)) :=
  ⟨by with_unfolding_all decide,
    C2_opportunity_score_bounds [recHalf] (1 / 2) "Low market saturation" scoreHalf
      (by with_unfolding_all decide) ⟨by norm_num, by norm_num⟩
      (by with_unfolding_all decide)⟩

/-! ## C3: determinism of the entry point -/

/-- Claim C3 counterexample: two runs of `analyze_market_gaps` on identical
input but at different wall-clock instants produce different outputs (they
differ in the `analysis_timestamp` field), so the entry point is not a pure
function of its input. -/
theorem C3_counterexample :
    analyze_market_gaps "2026-01-01T00:00:00" [recHalf] (1 / 2) "Low market saturation"
      ≠ analyze_market_gaps "2026-01-01T00:00:01" [recHalf] (1 / 2) "Low market saturation" := by
  with_unfolding_all decide

/-- Claim C3 (amended): running the entry point twice on identical input
yields identical output in every field except `analysis_timestamp` (the inner
analysis and recommendations are deterministic pure functions; only the
embedded wall-clock timestamp varies between runs). -/
theorem C3_deterministic_modulo_timestamp (t1 t2 : String)
    (records : List CompetitorRecord) (u : ℚ) (sat : String) :
    { analyze_market_gaps t1 records u sat with analysis_timestamp := none }
      = { analyze_market_gaps t2 records u sat with analysis_timestamp := none } := by
  unfold analyze_market_gaps
  cases perform_comprehensive_gap_analysis records u sat <;> rfl

/-! ## C4: per-record threat level -/

/-- Claim C4: the threat level of a competitor record is Low by default,
High when similarity > 0.7, Medium when 0.5 < similarity ≤ 0.7; github
records with more than 1000 stars are forced to High regardless of the
similarity-derived level, and stars never downgrade a similarity-driven
High. -/
theorem C4_threat_level (r : CompetitorRecord) :
    (r.similarity.getD 0 > 7 / 10 → (competitorInfo r).threat_level = "High")
      ∧ (r.source.getD "" = "github" ∧ r.stars.getD 0 > 1000 →
          (competitorInfo r).threat_level = "High")
      ∧ (¬ (r.source.getD "" = "github" ∧ r.stars.getD 0 > 1000) →
          r.similarity.getD 0 ≤ 7 / 10 → r.similarity.getD 0 > 1 / 2 →
          (competitorInfo r).threat_level = "Medium")
      ∧ (¬ (r.source.getD "" = "github" ∧ r.stars.getD 0 > 1000) →
          r.similarity.getD 0 ≤ 1 / 2 →
          (competitorInfo r).threat_level = "Low") := by
  unfold competitorInfo
  by_cases hg : r.source.getD "" = "github" ∧ r.stars.getD 0 > 1000
  · by_cases h7 : r.similarity.getD 0 > 7 / 10 <;>
      simp [hg, h7]
  · by_cases h7 : r.similarity.getD 0 > 7 / 10
    · simp [hg, h7]
      linarith
    · by_cases h5 : r.similarity.getD 0 > 1 / 2 <;> simp [hg, h7, h5]

/-- Witness for C4, the concrete record from the claim:
similarity 0.3, source github, 5000 stars is classified High. -/
def recStarHeavy : CompetitorRecord :=
  { source := some "github", title := some "hot repo", url := none, snippet := none,
    stars := some 5000, similarity := some (3 / 10), comment := none }

theorem C4_threat_level_witness : (competitorInfo recStarHeavy).threat_level = "High" :=
  (C4_threat_level recStarHeavy).2.1 ⟨rfl, by with_unfolding_all decide⟩

/-! ## C10: the entry point never raises -/

/-- Claim C10: for every input, `analyze_market_gaps` returns either a
success mapping (`success = true`, no `error` key, with the analysis and its
recommendations) or — when the internal analysis raises — a sentinel mapping
(`success = false`, an `error` string, no analysis); it never propagates the
exception. -/
theorem C10_entry_point_total (now : String) (records : List CompetitorRecord)
    (u : ℚ) (sat : String) :
    ((analyze_market_gaps now records u sat).success = true
      ∧ (analyze_market_gaps now records u sat).error = none
      ∧ ∃ a, perform_comprehensive_gap_analysis records u sat = Except.ok a
          ∧ (analyze_market_gaps now records u sat).market_analysis = some a
          ∧ (analyze_market_gaps now records u sat).recommendations
              = some (generate_strategic_recommendations a))
    ∨ ((analyze_market_gaps now records u sat).success = false
      ∧ (analyze_market_gaps now records u sat).market_analysis = none
      ∧ ∃ e, perform_comprehensive_gap_analysis records u sat = Except.error e
          ∧ (analyze_market_gaps now records u sat).error = some e) := by
  unfold analyze_market_gaps
  cases h : perform_comprehensive_gap_analysis records u sat with
  | ok a => exact Or.inl ⟨rfl, rfl, a, rfl, rfl, rfl⟩
  | error e => exact Or.inr ⟨rfl, rfl, e, rfl, rfl⟩

/-! ## C5: template resolver -/

theorem startsWithL_append (p rest : List Char) : startsWithL p (p ++ rest) = true := by
  induction p with
  | nil => rfl
  | cons a ps ih => simp [startsWithL, ih]

theorem endsWithL_append (p l : List Char) : endsWithL p (l ++ p) = true := by
  unfold endsWithL
  rw [List.reverse_append]
  exact startsWithL_append p.reverse l.reverse

theorem string_mk_data (s : String) : String.mk s.data = s := by
  cases s
  rfl

theorem mkTemplate_data (interior : String) :
    (mkTemplate interior).data = tmplOpen.data ++ interior.data ++ tmplClose.data := by
  unfold mkTemplate
  rw [String.data_append, String.data_append]

theorem mkTemplate_strip (interior : String) :
    String.mk (((mkTemplate interior).data.drop 3).take
        (((mkTemplate interior).data.drop 3).length - 2)) = interior := by
  rw [mkTemplate_data]
  have h3 : (3 : ℕ) = tmplOpen.data.length := by decide
  rw [List.append_assoc, h3, List.drop_left, List.length_append]
  have h2 : tmplClose.data.length = 2 := by decide
  rw [h2, Nat.add_sub_cancel, List.take_left, string_mk_data]

/-- Claim C5: a string of the template form is stripped of its markers and its
interior is evaluated as a dotted-path lookup in the context; every
non-template value (non-matching string, or any non-string) passes through
unchanged; in particular `inputs.x.y` resolves to the stored 5 and `"literal"`
resolves to itself in any context. -/
theorem C5_template_resolver (ctx : List (String × PyVal)) :
    (∀ s : String, ¬ (startsWithL tmplOpen.data s.data = true
          ∧ endsWithL tmplClose.data s.data = true) →
        eval_template (PyVal.str s) ctx = Except.ok (PyVal.str s))
      ∧ (∀ v : PyVal, (∀ s, v ≠ PyVal.str s) → eval_template v ctx = Except.ok v)
      ∧ (∀ interior : String,
          eval_template (PyVal.str (mkTemplate interior)) ctx = evalDotExpr interior ctx)
      ∧ eval_template (PyVal.str (mkTemplate " inputs.x.y "))
          [("inputs", PyVal.dict [("x", PyVal.dict [("y", PyVal.num 5)])]),
           ("steps", PyVal.dict [])] = Except.ok (PyVal.num 5)
      ∧ eval_template (PyVal.str "literal") ctx = Except.ok (PyVal.str "literal") := by
  refine ⟨?_, ?_, ?_, ?_, ?_⟩
  · intro s hs
    simp only [eval_template]
    rw [if_neg hs]
  · intro v hv
    cases v with
    | str s => exact absurd rfl (hv s)
    | num q => rfl
    | bool b => rfl
    | list l => rfl
    | dict d => rfl
    | none => rfl
  · intro interior
    simp only [eval_template]
    rw [if_pos]
    · rw [mkTemplate_strip]
    · constructor
      · rw [mkTemplate_data, List.append_assoc]
        exact startsWithL_append _ _
      · rw [mkTemplate_data]
        exact endsWithL_append _ _
  · rfl
  · simp only [eval_template]
    rw [if_neg]
    decide
theorem C5_template_resolver_witness :
    eval_template (PyVal.str "a plain value") [] = Except.ok (PyVal.str "a plain value") :=
  (C5_template_resolver []).1 "a plain value" (by decide)

/-! ## C6: the flow runner executes steps once, in order -/

theorem eb_ok {α β : Type} (x : Except String α) (g : α → Except String β) (b : β)
    (h : bind x g = Except.ok b) : ∃ a, x = Except.ok a ∧ g a = Except.ok b := by
  cases x with
  | ok a => exact ⟨a, rfl, h⟩
  | error e => exact absurd h (fun hh => Except.noConfusion hh)

theorem runSteps_cons_ok {registry : Registry} {s : StepSpec} {rest : List StepSpec}
    {inputs : PyVal} {steps final : List (String × PyVal)}
    (h : runSteps registry (s :: rest) inputs steps = Except.ok final) :
    ∃ f rargs output,
      registry s.uses = some f
        ∧ resolveArgs s.args (mkCtx inputs steps) = Except.ok rargs
        ∧ f rargs = Except.ok output
        ∧ runSteps registry rest inputs
            (assocSet steps s.id (PyVal.dict [("output", output)])) = Except.ok final := by
  simp only [runSteps] at h
  cases hreg : registry s.uses with
  | none =>
      rw [hreg] at h
      exact absurd h (fun hh => Except.noConfusion hh)
  | some f =>
      rw [hreg] at h
      have h2 : bind (resolveArgs s.args (mkCtx inputs steps))
          (fun rargs => bind (f rargs) (fun output =>
            runSteps registry rest inputs
              (assocSet steps s.id (PyVal.dict [("output", output)])))) = Except.ok final := h
      obtain ⟨rargs, hres, h3⟩ := eb_ok _ _ _ h2
      obtain ⟨output, hout, h4⟩ := eb_ok _ _ _ h3
      exact ⟨f, rargs, output, rfl, hres, hout, h4⟩

theorem runSteps_append (registry : Registry) (a b : List StepSpec) (inputs : PyVal)
    (st : List (String × PyVal)) :
    runSteps registry (a ++ b) inputs st
      = bind (runSteps registry a inputs st) (fun st2 => runSteps registry b inputs st2) := by
  induction a generalizing st with
  | nil => rfl
  | cons s rest ih =>
      simp only [List.cons_append, runSteps]
      cases hreg : registry s.uses with
      | none => rfl
      | some f =>
          show bind (resolveArgs s.args (mkCtx inputs st)) _
            = bind (bind (resolveArgs s.args (mkCtx inputs st)) _) _
          cases hres : resolveArgs s.args (mkCtx inputs st) with
          | error e => rfl
          | ok rargs =>
              show bind (f rargs) _ = bind (bind (f rargs) _) _
              cases hout : f rargs with
              | error e => rfl
              | ok output => exact ih _

theorem lookup_assocSet_self (l : List (String × PyVal)) (k : String) (v : PyVal) :
    (assocSet l k v).lookup k = some v := by
  induction l with
  | nil => simp [assocSet, List.lookup]
  | cons p rest ih =>
      obtain ⟨k0, v0⟩ := p
      by_cases h : k0 = k
      · subst h
        simp [assocSet, List.lookup]
      · simp only [assocSet, if_neg h, List.lookup]
        have hbe : (k == k0) = false := beq_eq_false_iff_ne.mpr (fun hh => h hh.symm)
        rw [hbe]
        exact ih

theorem lookup_assocSet_ne (l : List (String × PyVal)) (k k2 : String) (v : PyVal)
    (h : k2 ≠ k) : (assocSet l k v).lookup k2 = l.lookup k2 := by
  induction l with
  | nil =>
      simp only [assocSet, List.lookup]
      rw [beq_eq_false_iff_ne.mpr h]
  | cons p rest ih =>
      obtain ⟨k0, v0⟩ := p
      by_cases h0 : k0 = k
      · subst h0
        simp only [assocSet, if_pos rfl, List.lookup]
        rw [beq_eq_false_iff_ne.mpr h]
      · simp only [assocSet, if_neg h0, List.lookup]
        cases hbe : k2 == k0 with
        | true => rfl
        | false => exact ih

theorem runSteps_preserves_lookup (registry : Registry) (l : List StepSpec) (inputs : PyVal)
    (st final : List (String × PyVal)) (k : String)
    (hk : ∀ s ∈ l, s.id ≠ k) (h : runSteps registry l inputs st = Except.ok final) :
    final.lookup k = st.lookup k := by
  induction l generalizing st with
  | nil =>
      have hfin : st = final := Except.ok.inj h
      rw [hfin]
  | cons s rest ih =>
      obtain ⟨f, rargs, output, _, _, _, hrest⟩ := runSteps_cons_ok h
      rw [ih _ (fun s2 hs2 => hk s2 (List.mem_cons_of_mem s hs2)) hrest]
      exact lookup_assocSet_ne _ _ _ _ (Ne.symm (hk s (List.mem_cons_self s rest)))

/-- Claim C6: for a flow with distinct step ids whose run succeeds, every step
is executed exactly once in declared order: for each position `i`, running the
declared prefix yields a context `pre`, the step's callable is resolved from
the registry and applied to the arguments resolved against `pre`, and the
final `steps` mapping sends the step's id to exactly `{output: that value}`. -/
theorem C6_run_flow (registry : Registry) (flow : List StepSpec) (inputs : PyVal)
    (final : List (String × PyVal))
    (hnd : (flow.map StepSpec.id).Nodup)
    (hok : run_flow registry flow inputs = Except.ok final)
    (i : ℕ) (hi : i < flow.length) :
    ∃ pre f rargs out,
      runSteps registry (flow.take i) inputs [] = Except.ok pre
        ∧ registry (flow.get ⟨i, hi⟩).uses = some f
        ∧ resolveArgs (flow.get ⟨i, hi⟩).args (mkCtx inputs pre) = Except.ok rargs
        ∧ f rargs = Except.ok out
        ∧ final.lookup (flow.get ⟨i, hi⟩).id = some (PyVal.dict [("output", out)]) := by
  have hdecomp : flow = flow.take i ++ flow.get ⟨i, hi⟩ :: flow.drop (i + 1) := by
    conv_lhs => rw [← List.take_append_drop i flow]
    rw [List.drop_eq_getElem_cons hi]
    rfl
  rw [run_flow, hdecomp, runSteps_append] at hok
  obtain ⟨pre, hpre, hrest⟩ := eb_ok _ _ _ hok
  obtain ⟨f, rargs, out, hreg, hres, hout, hrest2⟩ := runSteps_cons_ok hrest
  have hids : ∀ s ∈ flow.drop (i + 1), s.id ≠ (flow.get ⟨i, hi⟩).id := by
    intro s hs heq
    have h1 := hnd
    rw [hdecomp, List.map_append, List.map_cons] at h1
    have h2 := (List.nodup_append.mp h1).2.1
    have h3 := (List.nodup_cons.mp h2).1
    exact h3 (heq ▸ List.mem_map_of_mem StepSpec.id hs)
  have hlk := runSteps_preserves_lookup registry _ inputs _ final _ hids hrest2
  exact ⟨pre, f, rargs, out, hpre, hreg, hres, hout,
    by rw [hlk, lookup_assocSet_self]⟩

/-- Witness flow for C6: two steps, the second consuming the first's output
through a template. -/
def regW : Registry := fun s =>
  if s = "agents.f" then some (fun _ => Except.ok (PyVal.num 7))
  else if s = "agents.g" then some (fun args => Except.ok (PyVal.dict args))
  else Option.none

def flowW : List StepSpec :=
  [{ id := "a", uses := "agents.f", args := [] },
   { id := "b", uses := "agents.g", args := [("x", PyVal.str (mkTemplate "steps.a.output"))] }]

def finalW : List (String × PyVal) :=
  [("a", PyVal.dict [("output", PyVal.num 7)]),
   ("b", PyVal.dict [("output", PyVal.dict [("x", PyVal.num 7)])])]

theorem C6_run_flow_witness :
    ∃ pre f rargs out,
      runSteps regW (flowW.take 1) (PyVal.dict []) [] = Except.ok pre
        ∧ regW (flowW.get ⟨1, by decide⟩).uses = some f
        ∧ resolveArgs (flowW.get ⟨1, by decide⟩).args (mkCtx (PyVal.dict []) pre) = Except.ok rargs
        ∧ f rargs = Except.ok out
        ∧ finalW.lookup (flowW.get ⟨1, by decide⟩).id = some (PyVal.dict [("output", out)]) :=
  C6_run_flow regW flowW (PyVal.dict []) finalW (by decide) rfl 1 (by decide)

/-! ## C7: feature-gap extraction -/

theorem getCount_bumpCount_self (l : List (String × ℕ)) (k : String) :
    getCount (bumpCount l k) k = getCount l k + 1 := by
  induction l with
  | nil => simp [bumpCount, getCount, List.lookup]
  | cons p rest ih =>
      obtain ⟨k0, v0⟩ := p
      by_cases h : k0 = k
      · subst h
        simp [bumpCount, getCount, List.lookup]
      · simp only [bumpCount, if_neg h, getCount, List.lookup]
        rw [beq_eq_false_iff_ne.mpr (fun hh => h hh.symm)]
        exact ih

theorem getCount_bumpCount_ne (l : List (String × ℕ)) (k k2 : String) (h : k2 ≠ k) :
    getCount (bumpCount l k) k2 = getCount l k2 := by
  induction l with
  | nil =>
      simp only [bumpCount, getCount, List.lookup]
      rw [beq_eq_false_iff_ne.mpr h]
  | cons p rest ih =>
      obtain ⟨k0, v0⟩ := p
      by_cases h0 : k0 = k
      · subst h0
        simp only [bumpCount, if_pos rfl, getCount, List.lookup]
        rw [beq_eq_false_iff_ne.mpr h]
      · simp only [bumpCount, if_neg h0, getCount, List.lookup]
        cases hbe : k2 == k0 with
        | true => rfl
        | false => exact ih

/-- Inner fold of `tallyRecord`: a category not among the pairs is untouched. -/
theorem getCount_tallyFold_notMem (ps : List (String × String)) (r : CompetitorRecord)
    (t : List (String × ℕ)) (c : String) (hc : c ∉ ps.map Prod.snd) :
    getCount (ps.foldl (fun t2 p => if mentions r p.1 then bumpCount t2 p.2 else t2) t) c
      = getCount t c := by
  induction ps generalizing t with
  | nil => rfl
  | cons p rest ih =>
      have hc1 : c ≠ p.2 := by
        intro hh
        exact hc (by rw [List.map_cons]; exact hh ▸ List.mem_cons_self _ _)
      have hc2 : c ∉ rest.map Prod.snd := by
        intro hh
        exact hc (by rw [List.map_cons]; exact List.mem_cons_of_mem _ hh)
      rw [List.foldl_cons, ih _ hc2]
      by_cases hm : mentions r p.1
      · rw [if_pos hm, getCount_bumpCount_ne _ _ _ hc1]
      · rw [if_neg hm]

/-- Inner fold of `tallyRecord`: with pairwise-distinct categories, each
category is bumped at most once per record. -/
theorem getCount_tallyFold_le (ps : List (String × String)) (r : CompetitorRecord)
    (t : List (String × ℕ)) (c : String) (hnd : (ps.map Prod.snd).Nodup) :
    getCount (ps.foldl (fun t2 p => if mentions r p.1 then bumpCount t2 p.2 else t2) t) c
      ≤ getCount t c + 1 := by
  induction ps generalizing t with
  | nil => exact Nat.le_succ _
  | cons p rest ih =>
      rw [List.map_cons, List.nodup_cons] at hnd
      rw [List.foldl_cons]
      by_cases hc : c = p.2
      · subst hc
        rw [getCount_tallyFold_notMem rest r _ p.2 hnd.1]
        by_cases hm : mentions r p.1
        · rw [if_pos hm, getCount_bumpCount_self]
        · rw [if_neg hm]
          exact Nat.le_succ _
      · have hstep : getCount (if mentions r p.1 then bumpCount t p.2 else t) c
            = getCount t c := by
          by_cases hm : mentions r p.1
          · rw [if_pos hm, getCount_bumpCount_ne _ _ _ hc]
          · rw [if_neg hm]
        calc getCount _ c ≤ getCount (if mentions r p.1 then bumpCount t p.2 else t) c + 1 :=
              ih _ hnd.2
          _ = getCount t c + 1 := by rw [hstep]

theorem getCount_tallyRecord_le (t : List (String × ℕ)) (r : CompetitorRecord) (c : String) :
    getCount (tallyRecord t r) c ≤ getCount t c + 1 :=
  getCount_tallyFold_le gap_indicators r t c (by decide)

theorem getCount_tallyRecords_le (records : List CompetitorRecord) (t : List (String × ℕ))
    (c : String) :
    getCount (records.foldl tallyRecord t) c ≤ getCount t c + records.length := by
  induction records generalizing t with
  | nil => simp
  | cons r rest ih =>
      rw [List.foldl_cons]
      calc getCount (rest.foldl tallyRecord (tallyRecord t r)) c
            ≤ getCount (tallyRecord t r) c + rest.length := ih _
        _ ≤ (getCount t c + 1) + rest.length :=
              Nat.add_le_add_right (getCount_tallyRecord_le t r c) _
        _ = getCount t c + (r :: rest).length := by simp [Nat.add_assoc, Nat.add_comm 1]

/-- Keys that can appear after a `bumpCount`. -/
theorem mem_keys_bumpCount (l : List (String × ℕ)) (k x : String)
    (h : x ∈ (bumpCount l k).map Prod.fst) : x = k ∨ x ∈ l.map Prod.fst := by
  induction l with
  | nil =>
      simp [bumpCount] at h
      exact Or.inl h
  | cons p rest ih =>
      obtain ⟨k0, v0⟩ := p
      by_cases h0 : k0 = k
      · subst h0
        simp only [bumpCount, if_pos rfl, List.map_cons] at h
        rcases List.mem_cons.mp h with h1 | h1
        · exact Or.inr (by rw [List.map_cons, h1]; exact List.mem_cons_self _ _)
        · exact Or.inr (by rw [List.map_cons]; exact List.mem_cons_of_mem _ h1)
      · simp only [bumpCount, if_neg h0, List.map_cons] at h
        rcases List.mem_cons.mp h with h1 | h1
        · exact Or.inr (by rw [List.map_cons, h1]; exact List.mem_cons_self _ _)
        · rcases ih h1 with h2 | h2
          · exact Or.inl h2
          · exact Or.inr (by rw [List.map_cons]; exact List.mem_cons_of_mem _ h2)

/-- `bumpCount` keeps the keys distinct. -/
theorem keysNodup_bumpCount (l : List (String × ℕ)) (k : String)
    (h : (l.map Prod.fst).Nodup) : ((bumpCount l k).map Prod.fst).Nodup := by
  induction l with
  | nil => simp [bumpCount]
  | cons p rest ih =>
      obtain ⟨k0, v0⟩ := p
      rw [List.map_cons, List.nodup_cons] at h
      by_cases h0 : k0 = k
      · subst h0
        simp only [bumpCount, eq_self_iff_true, if_true, List.map_cons, List.nodup_cons]
        exact h
      · simp only [bumpCount, if_neg h0, List.map_cons, List.nodup_cons]
        refine ⟨?_, ih h.2⟩
        intro hmem
        rcases mem_keys_bumpCount rest k k0 hmem with h1 | h1
        · exact h0 h1
        · exact h.1 h1

theorem keysNodup_tallyRecord (t : List (String × ℕ)) (r : CompetitorRecord)
    (h : (t.map Prod.fst).Nodup) : ((tallyRecord t r).map Prod.fst).Nodup := by
  unfold tallyRecord
  generalize gap_indicators = ps
  induction ps generalizing t with
  | nil => exact h
  | cons p rest ih =>
      rw [List.foldl_cons]
      by_cases hm : mentions r p.1
      · rw [if_pos hm]
        exact ih _ (keysNodup_bumpCount t p.2 h)
      · rw [if_neg hm]
        exact ih _ h

theorem keysNodup_tallyRecords (records : List CompetitorRecord) (t : List (String × ℕ))
    (h : (t.map Prod.fst).Nodup) :
    ((records.foldl tallyRecord t).map Prod.fst).Nodup := by
  induction records generalizing t with
  | nil => exact h
  | cons r rest ih =>
      rw [List.foldl_cons]
      exact ih _ (keysNodup_tallyRecord t r h)

/-- In a list with distinct keys, membership determines the lookup. -/
theorem lookup_eq_of_mem_keysNodup (l : List (String × ℕ)) (c : String) (n : ℕ)
    (hnd : (l.map Prod.fst).Nodup) (hm : (c, n) ∈ l) : l.lookup c = some n := by
  induction l with
  | nil => cases hm
  | cons p rest ih =>
      obtain ⟨k0, v0⟩ := p
      rw [List.map_cons, List.nodup_cons] at hnd
      rcases List.mem_cons.mp hm with h1 | h1
      · cases h1
        simp [List.lookup]
      · have hc0 : ¬ c = k0 := by
          intro hh
          have hmem : c ∈ rest.map Prod.fst := List.mem_map_of_mem Prod.fst h1
          exact hnd.1 (hh ▸ hmem)
        simp only [List.lookup]
        rw [beq_eq_false_iff_ne.mpr hc0]
        exact ih hnd.2 h1

theorem getCount_eq_of_mem (l : List (String × ℕ)) (c : String) (n : ℕ)
    (hnd : (l.map Prod.fst).Nodup) (hm : (c, n) ∈ l) : getCount l c = n := by
  unfold getCount
  rw [lookup_eq_of_mem_keysNodup l c n hnd hm]
  rfl

theorem mem_insertByCount (x y : String × ℕ) (l : List (String × ℕ))
    (h : x ∈ insertByCount y l) : x = y ∨ x ∈ l := by
  induction l with
  | nil => simpa [insertByCount] using h
  | cons p rest ih =>
      unfold insertByCount at h
      by_cases hc : y.2 ≤ p.2
      · rw [if_pos hc] at h
        rcases List.mem_cons.mp h with h1 | h1
        · exact Or.inr (by simp [h1])
        · rcases ih h1 with h2 | h2
          · exact Or.inl h2
          · exact Or.inr (List.mem_cons_of_mem _ h2)
      · rw [if_neg hc] at h
        rcases List.mem_cons.mp h with h1 | h1
        · exact Or.inl h1
        · exact Or.inr h1

theorem mem_sortFold (l : List (String × ℕ)) (acc : List (String × ℕ)) (x : String × ℕ)
    (h : x ∈ l.foldl (fun a y => insertByCount y a) acc) : x ∈ acc ∨ x ∈ l := by
  induction l generalizing acc with
  | nil => exact Or.inl h
  | cons p rest ih =>
      rw [List.foldl_cons] at h
      rcases ih _ h with h1 | h1
      · rcases mem_insertByCount x p acc h1 with h2 | h2
        · exact Or.inr (by simp [h2])
        · exact Or.inl h2
      · exact Or.inr (List.mem_cons_of_mem _ h1)

theorem mem_sortByCountDesc (l : List (String × ℕ)) (x : String × ℕ)
    (h : x ∈ sortByCountDesc l) : x ∈ l := by
  rcases mem_sortFold l [] x h with h1 | h1
  · cases h1
  · exact h1

/-- The tally entries reachable from the records: bounded count and a
category drawn from the seven indicator categories. -/
theorem tally_entry_bounds (records : List CompetitorRecord) (c : String) (n : ℕ)
    (hm : (c, n) ∈ records.foldl tallyRecord []) : n ≤ records.length := by
  have hnd := keysNodup_tallyRecords records [] (by simp)
  have hg := getCount_eq_of_mem _ c n hnd hm
  have hle := getCount_tallyRecords_le records [] c
  rw [hg] at hle
  simpa [getCount, List.lookup] using hle

/-- Keys of the inner fold come from the old keys or the pair categories. -/
theorem mem_keys_tallyFold (ps : List (String × String)) (r : CompetitorRecord)
    (t : List (String × ℕ)) (x : String)
    (h : x ∈ ((ps.foldl (fun t2 p => if mentions r p.1 then bumpCount t2 p.2 else t2) t).map
      Prod.fst)) :
    x ∈ t.map Prod.fst ∨ x ∈ ps.map Prod.snd := by
  induction ps generalizing t with
  | nil => exact Or.inl h
  | cons p rest ih =>
      rw [List.foldl_cons] at h
      rcases ih _ h with h1 | h1
      · by_cases hm : mentions r p.1
        · rw [if_pos hm] at h1
          rcases mem_keys_bumpCount t p.2 x h1 with h2 | h2
          · exact Or.inr (by simp [h2])
          · exact Or.inl h2
        · rw [if_neg hm] at h1
          exact Or.inl h1
      · exact Or.inr (by rw [List.map_cons]; exact List.mem_cons_of_mem _ h1)

theorem mem_keys_tallyRecords (records : List CompetitorRecord) (t : List (String × ℕ))
    (x : String) (h : x ∈ (records.foldl tallyRecord t).map Prod.fst) :
    x ∈ t.map Prod.fst ∨ x ∈ gap_indicators.map Prod.snd := by
  induction records generalizing t with
  | nil => exact Or.inl h
  | cons r rest ih =>
      rw [List.foldl_cons] at h
      rcases ih _ h with h1 | h1
      · exact mem_keys_tallyFold gap_indicators r t x h1
      · exact Or.inr h1

/-- Every feature gap found by extraction is mapped into the gaps list of
rule 3 with priority "Medium" (whenever gap identification succeeds). -/
theorem feature_gap_in_identify (records : List CompetitorRecord) (u : ℚ)
    (m : MarketMetrics) (n : ℕ) (gaps : List Gap) (fg : FeatureGap)
    (hm : m.high_quality_competitors = some n)
    (hok : identify_market_gaps records u m = Except.ok gaps)
    (hfg : fg ∈ extract_feature_gaps records) :
    { gap_type := "Feature Gap"
      description := "Missing capability: " ++ fg.feature
      confidence := fg.confidence
      priority := "Medium"
      potential_impact := "Product Differentiation"
      evidence := "Mentioned in " ++ toString fg.frequency ++ " competitor analyses" } ∈ gaps := by
  unfold identify_market_gaps at hok
  rw [hm] at hok
  have heq := Except.ok.inj hok
  rw [← heq]
  simp only [List.mem_append]
  exact Or.inl (Or.inl (Or.inr (List.mem_map_of_mem _ hfg)))

/-- The three-record comment example of the claim. -/
def recLacks1 : CompetitorRecord :=
  { source := some "ddg", title := none, url := none, snippet := none,
    stars := none, similarity := none, comment := some "this tool lacks integrations" }

def recLacks2 : CompetitorRecord :=
  { source := some "ddg", title := none, url := none, snippet := none,
    stars := none, similarity := none, comment := some "lacks support for teams" }

def recGreat : CompetitorRecord :=
  { source := some "ddg", title := none, url := none, snippet := none,
    stars := none, similarity := none, comment := some "great tool" }

/-- Claim C7: feature-gap extraction returns at most 3 entries; each returned
entry was tallied at most once per record (so its frequency is bounded by the
number of records), comes from more than one record, carries confidence
`min(0.9, 0.4 + 0.2·count)`, names one of the seven indicator categories, and
is emitted by gap identification with priority "Medium"; on the claim's
three-comment example the "lacks" category appears with frequency 2 and
confidence 0.8. -/
theorem C7_feature_gaps (records : List CompetitorRecord) :
    (extract_feature_gaps records).length ≤ 3
      ∧ (∀ g ∈ extract_feature_gaps records,
          1 < g.frequency
            ∧ g.frequency ≤ records.length
            ∧ g.confidence = min (9 / 10 : ℚ) (4 / 10 + g.frequency * (2 / 10))
            ∧ g.feature ∈ gap_indicators.map Prod.snd)
      ∧ (∀ (u : ℚ) (m : MarketMetrics) (n : ℕ) (gaps : List Gap),
          m.high_quality_competitors = some n →
          identify_market_gaps records u m = Except.ok gaps →
          ∀ g ∈ extract_feature_gaps records,
            ({ gap_type := "Feature Gap"
               description := "Missing capability: " ++ g.feature
               confidence := g.confidence
               priority := "Medium"
               potential_impact := "Product Differentiation"
               evidence := "Mentioned in " ++ toString g.frequency
                 ++ " competitor analyses" } : Gap) ∈ gaps)
      ∧ extract_feature_gaps [recLacks1, recLacks2, recGreat]
          = [{ feature := "missing functionality", frequency := 2, confidence := 4 / 5 }] := by
  refine ⟨?_, ?_, ?_, by with_unfolding_all decide⟩
  · unfold extract_feature_gaps
    calc (List.filterMap _ _).length ≤ ((sortByCountDesc _).take 3).length :=
          List.length_filterMap_le _ _
      _ ≤ 3 := List.length_take_le _ _
  · intro g hg
    unfold extract_feature_gaps at hg
    obtain ⟨p, hp, hF⟩ := List.mem_filterMap.mp hg
    by_cases hgt : p.2 > 1
    · rw [if_pos hgt] at hF
      have hgp := Option.some.inj hF
      have hmem : p ∈ records.foldl tallyRecord [] :=
        mem_sortByCountDesc _ _ (List.mem_of_mem_take hp)
      have hple : p.2 ≤ records.length := by
        have := tally_entry_bounds records p.1 p.2 (by
          have : (p.1, p.2) = p := rfl
          rw [this]; exact hmem)
        exact this
      have hkey : p.1 ∈ gap_indicators.map Prod.snd := by
        rcases mem_keys_tallyRecords records [] p.1
            (List.mem_map_of_mem Prod.fst hmem) with h1 | h1
        · cases h1
        · exact h1
      rw [← hgp]
      exact ⟨hgt, hple, rfl, hkey⟩
    · rw [if_neg hgt] at hF
      exact absurd hF (fun hh => Option.noConfusion hh)
  · intro u m n gaps hm hok g hg
    exact feature_gap_in_identify records u m n gaps g hm hok hg

theorem C7_feature_gaps_witness :
    1 < ({ feature := "missing functionality", frequency := 2, confidence := 4 / 5 }
        : FeatureGap).frequency
      ∧ ({ feature := "missing functionality", frequency := 2, confidence := 4 / 5 }
        : FeatureGap).frequency ≤ [recLacks1, recLacks2, recGreat].length
      ∧ ({ feature := "missing functionality", frequency := 2, confidence := 4 / 5 }
        : FeatureGap).confidence
          = min (9 / 10 : ℚ) (4 / 10
              + ({ feature := "missing functionality", frequency := 2, confidence := 4 / 5 }
                : FeatureGap).frequency * (2 / 10))
      ∧ ({ feature := "missing functionality", frequency := 2, confidence := 4 / 5 }
        : FeatureGap).feature ∈ gap_indicators.map Prod.snd :=
  (C7_feature_gaps [recLacks1, recLacks2, recGreat]).2.1 _ (by with_unfolding_all decide)

/-! ## C9: upstream scorer mutates the caller's records in place -/

theorem scoreStep_length (llm : CompetitorRecord → Option (ℚ × String))
    (store : List CompetitorRecord) (ref : ℕ) :
    (scoreStep llm store ref).length = store.length := by
  unfold scoreStep
  cases hr : store[ref]? with
  | some r => exact List.length_set store ref _
  | none => rfl

theorem scoreStep_get_ne (llm : CompetitorRecord → Option (ℚ × String))
    (store : List CompetitorRecord) (ref j : ℕ) (h : j ≠ ref) :
    (scoreStep llm store ref)[j]? = store[j]? := by
  unfold scoreStep
  cases hr : store[ref]? with
  | some r => exact List.getElem?_set_ne (fun hh => h hh.symm)
  | none => rfl

theorem scoreStep_get_self (llm : CompetitorRecord → Option (ℚ × String))
    (store : List CompetitorRecord) (ref : ℕ) (r : CompetitorRecord)
    (h : store[ref]? = some r) :
    (scoreStep llm store ref)[ref]? = some (scoreMutate llm r) := by
  have hlt : ref < store.length := by
    by_contra hge
    rw [List.getElem?_eq_none (Nat.le_of_not_lt hge)] at h
    exact Option.noConfusion h
  unfold scoreStep
  rw [h]
  exact List.getElem?_set_eq_of_lt _ hlt

theorem scoreFold_spec (llm : CompetitorRecord → Option (ℚ × String)) (refs : List ℕ)
    (store : List CompetitorRecord)
    (hv : ∀ i ∈ refs, i < store.length) (hnd : refs.Nodup) :
    (∀ i ∈ refs, ∃ r, store[i]? = some r
        ∧ (refs.foldl (scoreStep llm) store)[i]? = some (scoreMutate llm r))
      ∧ (∀ j, j ∉ refs → (refs.foldl (scoreStep llm) store)[j]? = store[j]?) := by
  induction refs generalizing store with
  | nil => exact ⟨fun i hi => absurd hi (List.not_mem_nil i), fun j hj => rfl⟩
  | cons a rest ih =>
      rw [List.nodup_cons] at hnd
      have hlen : (scoreStep llm store a).length = store.length := scoreStep_length llm store a
      have hv2 : ∀ i ∈ rest, i < (scoreStep llm store a).length := by
        intro i hi
        rw [hlen]
        exact hv i (List.mem_cons_of_mem a hi)
      obtain ⟨ih1, ih2⟩ := ih (scoreStep llm store a) hv2 hnd.2
      constructor
      · intro i hi
        rcases List.mem_cons.mp hi with h1 | h1
        · subst h1
          have hlt : i < store.length := hv i (List.mem_cons_self i rest)
          refine ⟨store[i], List.getElem?_eq_getElem hlt, ?_⟩
          rw [List.foldl_cons, ih2 i hnd.1]
          exact scoreStep_get_self llm store i store[i] (List.getElem?_eq_getElem hlt)
        · obtain ⟨r, hr1, hr2⟩ := ih1 i h1
          have hne : i ≠ a := fun hh => hnd.1 (hh ▸ h1)
          refine ⟨r, ?_, ?_⟩
          · rw [← scoreStep_get_ne llm store a i hne]
            exact hr1
          · rw [List.foldl_cons]
            exact hr2
      · intro j hj
        have hja : j ≠ a := fun hh => hj (hh ▸ List.mem_cons_self a rest)
        have hjr : j ∉ rest := fun hh => hj (List.mem_cons_of_mem a hh)
        rw [List.foldl_cons, ih2 j hjr]
        exact scoreStep_get_ne llm store a j hja

/-- Claim C9: `score_similarity` returns, as its `scored_results`, exactly the
caller's reference list (the same aliased objects, appended one by one — not
copies), and mutates each referenced record in place by writing the
`similarity` and `comment` keys; records not referenced are untouched
(frame condition). -/
theorem C9_inplace_mutation (llm : CompetitorRecord → Option (ℚ × String))
    (store : List CompetitorRecord) (refs : List ℕ)
    (hv : ∀ i ∈ refs, i < store.length) (hnd : refs.Nodup) :
    (score_similarity llm store refs).2.1 = refs
      ∧ (∀ i ∈ refs, ∃ r, store[i]? = some r
          ∧ (score_similarity llm store refs).1[i]? = some (scoreMutate llm r))
      ∧ (∀ j, j ∉ refs → (score_similarity llm store refs).1[j]? = store[j]?) := by
  have hs1 : (score_similarity llm store refs).1 = refs.foldl (scoreStep llm) store := rfl
  obtain ⟨h1, h2⟩ := scoreFold_spec llm refs store hv hnd
  exact ⟨rfl, by rw [hs1]; exact h1, by rw [hs1]; exact h2⟩

/-- Witness store and oracle for C9. -/
def llmW : CompetitorRecord → Option (ℚ × String) := fun _ => some (1 / 2, "overlaps")

def recSim0 : CompetitorRecord :=
  { source := some "github", title := some "repo", url := none, snippet := some "a tool",
    stars := some 10, similarity := none, comment := none }

def recSim1 : CompetitorRecord :=
  { source := some "ddg", title := some "site", url := none, snippet := some "a page",
    stars := none, similarity := none, comment := none }

theorem C9_inplace_mutation_witness :
    (score_similarity llmW [recSim0, recSim1] [0, 1]).2.1 = [0, 1]
      ∧ (score_similarity llmW [recSim0, recSim1] [0, 1]).1[0]?
          = some (scoreMutate llmW recSim0)
      ∧ (score_similarity llmW [recSim0, recSim1] [0, 1]).1[5]?
          = [recSim0, recSim1][5]? := by
  have h := C9_inplace_mutation llmW [recSim0, recSim1] [0, 1] (by decide) (by decide)
  refine ⟨h.1, ?_, h.2.2 5 (by decide)⟩
  obtain ⟨r, hr1, hr2⟩ := h.2.1 0 (by decide)
  have hr : r = recSim0 := by
    have h0 : ([recSim0, recSim1] : List CompetitorRecord)[0]? = some recSim0 := rfl
    rw [h0] at hr1
    exact (Option.some.inj hr1).symm
  rw [hr] at hr2
  exact hr2

end MarketQuery
